import Mathlib

/-!
Verification of jquery.tappable.js (version 0.1).

The plugin attaches per-element touch handlers.  Per-element state is held as
three CSS classes on the element, which double as the phase of a small state
machine:

  * `touched`       — the highlight / ACTIVE marker,
  * `touch-started` — the PENDING marker set on touchstart,
  * `touch-ended`   — the ENDED_EARLY marker set when the finger lifts before
                      the delay timer has fired.

Every touchstart schedules a fresh `window.setTimeout(fn, touchDelay)`; no
timer is ever cancelled, so several scheduled callbacks can be outstanding at
once.  All timers of one binding share the same delay, so they fire in FIFO
order; the model keeps the queue of captured touchstart events in the state.

The embedding below translates each handler of the source file branch by
branch.  Guards (`onlyIf(el)`) are re-evaluated by the code at each call site,
so each event of a trace carries the Boolean the guard returns at that moment.
An invocation of the callback is recorded as the pair
(receiver element, event argument), mirroring `callback.call(el, event)`.
-/

namespace Tappable

/-- The marker classes on one element together with the queue of pending
`setTimeout` callbacks (each remembers the touchstart event it captured).
Mirrors the classes `touched`, `touch-started`, `touch-ended` used by the
source. -/
structure ElState (E : Type) where
  touched : Bool
  touch_started : Bool
  touch_ended : Bool
  timers : List E
deriving Repr, DecidableEq

/-- The configuration produced by `$.fn.tappable(options)`: the local
variables `callback`, `cancelOnMove`, `onlyIf`, `touchDelay` of the source.
`callback = none` models `callback` being undefined or not a function (the
code only ever tests `typeof callback == 'function'`).  `onlyIf = none`
models the default guard `function() { return true }`. -/
structure Config (F G : Type) where
  callback : Option F
  cancelOnMove : Bool
  onlyIf : Option G
  touchDelay : Nat
deriving Repr, DecidableEq

/-- The options argument of `$.fn.tappable`: either a bare function or an
object whose fields may each be absent (`undefined`). -/
structure TappableObj (F G : Type) where
  callback : Option F
  cancelOnMove : Option Bool
  onlyIf : Option G
  touchDelay : Option Nat
deriving Repr, DecidableEq

/-- `typeof options` is either `'function'` or `'object'` in the cases the
source's `switch` handles. -/
inductive TappableArg (F G : Type) where
  | func (f : F)
  | obj (o : TappableObj F G)
deriving Repr, DecidableEq

/-- The `switch(typeof options)` at the top of `$.fn.tappable`: a bare
function becomes the callback with all defaults; an object overrides a
default exactly when the corresponding field is not `undefined`. -/
def tappableConfig {F G : Type} : TappableArg F G → Config F G
  | .func f => ⟨some f, true, none, 0⟩
  | .obj o => ⟨o.callback, o.cancelOnMove.getD true, o.onlyIf, o.touchDelay.getD 0⟩

/-- Events delivered to one element, in dispatch order.  `g` is the value
`onlyIf(el)` returns when the handler (or `fireCallback`) consults it during
that dispatch.  `timerFire` pops the oldest pending `setTimeout` callback. -/
inductive Ev (E : Type) where
  | touchstart (g : Bool) (ev : E)
  | touchend (g : Bool) (ev : E)
  | touchmove
  | timerFire (g : Bool)
  | click (ev : E)
deriving Repr, DecidableEq

/-- Result of dispatching one event: the new element state, the callback
invocations made (receiver, event argument), and whether the handler called
`event.preventDefault()`. -/
structure StepRes (Elem E : Type) where
  s : ElState E
  invs : List (Elem × E)
  prevented : Bool
deriving Repr, DecidableEq

/-- `fireCallback(el, event)`: invoke the callback on `el` with `event` iff
`typeof callback == 'function' && onlyIf(el)`. -/
def fireCallback {F G Elem E : Type} (cfg : Config F G) (g : Bool) (el : Elem)
    (ev : E) : List (Elem × E) :=
  if cfg.callback.isSome && g then [(el, ev)] else []

/-- One dispatch step of the touch-capable path, handler by handler:

  * `touchstart`: if `onlyIf(el)`, remove `touched` and `touch-ended`, add
    `touch-started`, and schedule a timer capturing this event;
  * `timerFire`: the scheduled callback runs: if the element has
    `touch-ended`, call `fireCallback`; else if it has `touch-started`, add
    `touched`; else do nothing;
  * `touchend`: if the element has `touched`, remove it and call
    `fireCallback`; else if it has `touch-started`, swap it for `touch-ended`;
  * `touchmove` (bound only when `cancelOnMove`): remove all three classes;
  * `click`: `event.preventDefault()` only. -/
def stepT {F G Elem E : Type} (cfg : Config F G) (el : Elem) (s : ElState E) :
    Ev E → StepRes Elem E
  | .touchstart g ev =>
      if g then
        ⟨{ s with touched := false, touch_ended := false, touch_started := true,
                  timers := s.timers ++ [ev] }, [], false⟩
      else ⟨s, [], false⟩
  | .timerFire g =>
      match s.timers with
      | [] => ⟨s, [], false⟩
      | ev :: rest =>
          if s.touch_ended then
            ⟨{ s with timers := rest }, fireCallback cfg g el ev, false⟩
          else if s.touch_started then
            ⟨{ s with touched := true, timers := rest }, [], false⟩
          else
            ⟨{ s with timers := rest }, [], false⟩
  | .touchend g ev =>
      if s.touched then
        ⟨{ s with touched := false }, fireCallback cfg g el ev, false⟩
      else if s.touch_started then
        ⟨{ s with touch_started := false, touch_ended := true }, [], false⟩
      else ⟨s, [], false⟩
  | .touchmove =>
      if cfg.cancelOnMove then
        ⟨{ s with touched := false, touch_started := false, touch_ended := false },
          [], false⟩
      else ⟨s, [], false⟩
  | .click _ => ⟨s, [], true⟩

/-- Run a trace of events, returning the final element state and the
concatenated list of callback invocations. -/
def runT {F G Elem E : Type} (cfg : Config F G) (el : Elem) (s : ElState E) :
    List (Ev E) → ElState E × List (Elem × E)
  | [] => (s, [])
  | e :: tr =>
      let r := stepT cfg el s e
      let rest := runT cfg el r.s tr
      (rest.1, r.invs ++ rest.2)

/-- All states visited while running a trace (initial state included). -/
def runStates {F G Elem E : Type} (cfg : Config F G) (el : Elem) (s : ElState E) :
    List (Ev E) → List (ElState E)
  | [] => [s]
  | e :: tr => s :: runStates cfg el (stepT cfg el s e).s tr

/-- The click fallback (`touchSupported` false): a click handler is bound only
when `typeof callback == 'function'`; it calls the callback iff `onlyIf(el)`. -/
def fallbackClick {F G Elem E : Type} (cfg : Config F G) (el : Elem) (g : Bool)
    (ev : E) : List (Elem × E) :=
  match cfg.callback with
  | some _ => if g then [(el, ev)] else []
  | none => []

/-- A freshly bound element: no classes, no pending timers. -/
def s0 {E : Type} : ElState E := ⟨false, false, false, []⟩

/-- No marker class is set: the IDLE configuration. -/
def markersIdle {E : Type} (s : ElState E) : Prop :=
  s.touched = false ∧ s.touch_started = false ∧ s.touch_ended = false

instance decMarkersIdle {E : Type} (s : ElState E) : Decidable (markersIdle s) :=
  decidable_of_iff
    (s.touched = false ∧ s.touch_started = false ∧ s.touch_ended = false)
    Iff.rfl

/-- Does the trace contain a guard-passing touchstart (one that starts a
cycle)? -/
def hasGuardTS {E : Type} (tr : List (Ev E)) : Bool :=
  tr.any fun e => match e with
    | .touchstart g _ => g
    | _ => false

/-- Number of guard-passing touchstarts in a trace. -/
def countTS {E : Type} (tr : List (Ev E)) : Nat :=
  (tr.filter fun e => match e with
    | .touchstart g _ => g
    | _ => false).length

/-- Potential bounding the number of callback invocations a state can still
produce without a further touchstart: pending timers plus a set highlight. -/
def pot {E : Type} (s : ElState E) : Nat :=
  s.timers.length + (if s.touched then 1 else 0)

section Lemmas

variable {F G Elem E : Type}

theorem runT_append (cfg : Config F G) (el : Elem) (s : ElState E)
    (a b : List (Ev E)) :
    runT cfg el s (a ++ b) =
      ((runT cfg el (runT cfg el s a).1 b).1,
        (runT cfg el s a).2 ++ (runT cfg el (runT cfg el s a).1 b).2) := by
  induction a generalizing s with
  | nil => simp [runT]
  | cons e a ih => simp [runT, ih, List.append_assoc]

theorem fireCallback_length_le (cfg : Config F G) (g : Bool) (el : Elem)
    (ev : E) : (fireCallback cfg g el ev).length ≤ 1 := by
  unfold fireCallback
  split <;> simp

theorem stepT_pot (cfg : Config F G) (el : Elem) (s : ElState E) (e : Ev E) :
    (stepT cfg el s e).invs.length + pot (stepT cfg el s e).s ≤
      pot s + countTS [e] := by
  obtain ⟨t, st, en, tim⟩ := s
  have hf : ∀ (g : Bool) (ev : E), (fireCallback cfg g el ev).length ≤ 1 :=
    fun g ev => fireCallback_length_le cfg g el ev
  cases e with
  | touchstart g ev =>
      cases g <;> cases t <;> simp [stepT, pot, countTS]
  | touchend g ev =>
      cases t <;> cases st <;> simp [stepT, pot, countTS] <;>
        · have := hf g ev; omega
  | touchmove =>
      by_cases hm : cfg.cancelOnMove <;> cases t <;>
        simp [stepT, pot, countTS, hm]
  | timerFire g =>
      cases tim with
      | nil => cases t <;> simp [stepT, pot, countTS]
      | cons ev rest =>
          cases en <;> cases st <;> cases t <;>
            simp [stepT, pot, countTS] <;>
            · have := hf g ev; omega
  | click ev => cases t <;> simp [stepT, pot, countTS]

theorem runT_pot (cfg : Config F G) (el : Elem) (s : ElState E)
    (tr : List (Ev E)) :
    (runT cfg el s tr).2.length + pot (runT cfg el s tr).1 ≤
      pot s + countTS tr := by
  induction tr generalizing s with
  | nil => simp [runT, countTS]
  | cons e tr ih =>
      have h1 := stepT_pot cfg el s e
      have h2 := ih (stepT cfg el s e).s
      have hc : countTS (e :: tr) = countTS [e] + countTS tr := by
        cases e with
        | touchstart g ev =>
            cases g <;> simp [countTS, List.filter_cons, Nat.add_comm]
        | touchend g ev => simp [countTS, List.filter_cons]
        | touchmove => simp [countTS, List.filter_cons]
        | timerFire g => simp [countTS, List.filter_cons]
        | click ev => simp [countTS, List.filter_cons]
      simp only [runT, List.length_append]
      omega

/-- The mutual-exclusion invariant the code actually maintains: whenever the
`touch-ended` class is set, neither `touched` nor `touch-started` is. -/
def exclInv {E : Type} (s : ElState E) : Prop :=
  s.touch_ended = true → s.touched = false ∧ s.touch_started = false

theorem stepT_exclInv (cfg : Config F G) (el : Elem) (s : ElState E) (e : Ev E)
    (h : exclInv s) : exclInv (stepT cfg el s e).s := by
  obtain ⟨t, st, en, tim⟩ := s
  cases e with
  | touchstart g ev =>
      cases g with
      | false => simpa [stepT, exclInv] using h
      | true => simp [stepT, exclInv]
  | touchend g ev =>
      cases t <;> cases st <;> cases en <;>
        simp_all [stepT, exclInv]
  | touchmove =>
      by_cases hm : cfg.cancelOnMove <;> simp_all [stepT, exclInv]
  | timerFire g =>
      cases tim with
      | nil => simpa [stepT, exclInv] using h
      | cons ev rest =>
          cases en <;> cases st <;> simp_all [stepT, exclInv]
  | click ev => simpa [stepT, exclInv] using h

theorem runT_exclInv (cfg : Config F G) (el : Elem) (s : ElState E)
    (tr : List (Ev E)) (h : exclInv s) : exclInv (runT cfg el s tr).1 := by
  induction tr generalizing s with
  | nil => simpa [runT]
  | cons e tr ih =>
      simp only [runT]
      exact ih _ (stepT_exclInv cfg el s e h)

/-- From an all-clear marker configuration, a trace with no guard-passing
touchstart keeps the markers clear and never invokes the callback: pending
stale timers pop as pure no-ops. -/
theorem runT_idle (cfg : Config F G) (el : Elem) (s : ElState E)
    (tr : List (Ev E)) (hs : markersIdle s) (htr : hasGuardTS tr = false) :
    markersIdle (runT cfg el s tr).1 ∧ (runT cfg el s tr).2 = [] := by
  induction tr generalizing s with
  | nil => exact ⟨hs, rfl⟩
  | cons e tr ih =>
      obtain ⟨t, st, en, tim⟩ := s
      obtain ⟨h1, h2, h3⟩ := hs
      simp only at h1 h2 h3
      subst h1; subst h2; subst h3
      have htr' : hasGuardTS tr = false := by
        simp [hasGuardTS] at htr ⊢
        exact htr.2
      have step_ok :
          markersIdle (stepT cfg el ⟨false, false, false, tim⟩ e).s ∧
            (stepT cfg el ⟨false, false, false, tim⟩ e).invs = [] := by
        cases e with
        | touchstart g ev =>
            have hg : g = false := by
              simp [hasGuardTS] at htr
              exact htr.1
            subst hg
            simp [stepT, markersIdle]
        | touchend g ev => simp [stepT, markersIdle]
        | touchmove =>
            by_cases hm : cfg.cancelOnMove <;> simp [stepT, markersIdle, hm]
        | timerFire g =>
            cases tim <;> simp [stepT, markersIdle]
        | click ev => simp [stepT, markersIdle]
      have := ih _ step_ok.1 htr'
      simp only [runT, List.append_eq_nil]
      exact ⟨this.1, step_ok.2, this.2⟩

/-- The state component of a step does not depend on the configured callback
(only invocations do), provided `cancelOnMove` agrees. -/
theorem stepT_state_congr (cfg cfg' : Config F G) (el : Elem) (s : ElState E)
    (e : Ev E) (h : cfg.cancelOnMove = cfg'.cancelOnMove) :
    (stepT cfg el s e).s = (stepT cfg' el s e).s := by
  obtain ⟨t, st, en, tim⟩ := s
  cases e with
  | touchstart g ev => cases g <;> simp [stepT]
  | touchend g ev => cases t <;> cases st <;> simp [stepT]
  | touchmove => simp [stepT, h]
  | timerFire g =>
      cases tim with
      | nil => simp [stepT]
      | cons ev rest => cases en <;> cases st <;> simp [stepT]
  | click ev => simp [stepT]

theorem runT_state_congr (cfg cfg' : Config F G) (el : Elem) (s : ElState E)
    (tr : List (Ev E)) (h : cfg.cancelOnMove = cfg'.cancelOnMove) :
    (runT cfg el s tr).1 = (runT cfg' el s tr).1 := by
  induction tr generalizing s with
  | nil => simp [runT]
  | cons e tr ih =>
      simp only [runT]
      rw [stepT_state_congr cfg cfg' el s e h]
      exact ih _

theorem stepT_invs_none (cfg : Config F G) (el : Elem) (s : ElState E)
    (e : Ev E) (h : cfg.callback = none) : (stepT cfg el s e).invs = [] := by
  obtain ⟨t, st, en, tim⟩ := s
  cases e with
  | touchstart g ev => cases g <;> simp [stepT]
  | touchend g ev => cases t <;> cases st <;> simp [stepT, fireCallback, h]
  | touchmove => by_cases hm : cfg.cancelOnMove <;> simp [stepT, hm]
  | timerFire g =>
      cases tim with
      | nil => simp [stepT]
      | cons ev rest =>
          cases en <;> cases st <;> simp [stepT, fireCallback, h]
  | click ev => simp [stepT]

theorem runT_invs_none (cfg : Config F G) (el : Elem) (s : ElState E)
    (tr : List (Ev E)) (h : cfg.callback = none) : (runT cfg el s tr).2 = [] := by
  induction tr generalizing s with
  | nil => simp [runT]
  | cons e tr ih =>
      simp [runT, stepT_invs_none cfg el s e h, ih]

end Lemmas

/-- A concrete configuration for closed instances: a callback configured,
`cancelOnMove` on, default guard, zero delay. -/
def cfgEx : Config Unit Unit := ⟨some (), true, none, 0⟩

/-- A concrete configuration whose action is not a callable function. -/
def cfgNone : Config Unit Unit := ⟨none, true, none, 0⟩

section Claims

variable {F G Elem E : Type}

/-- Claim C1, counterexample to its second part: a delay timer left over from
an earlier, move-cancelled cycle fires inside a new cycle entered by a later
touchstart and does affect it — it triggers the callback with the old
captured event, and the new cycle's own timer then produces a second
invocation; the same new cycle without the stale timer yields exactly one
invocation. -/
theorem C1_counterexample :
    (runT cfgEx () s0 [Ev.touchstart true 10, Ev.touchmove,
        Ev.touchstart true 20, Ev.touchend true 30,
        Ev.timerFire true, Ev.timerFire true]).2 = [((), 10), ((), 20)] ∧
      (runT cfgEx () s0 [Ev.touchstart true 20, Ev.touchend true 30,
        Ev.timerFire true]).2 = [((), 20)] := by
  decide

/-- Claim C1 as amended: if an element's markers are all clear (the IDLE
configuration) then any number of delay-timer firings is a pure no-op — the
markers stay clear and no callback is invoked; but a stale timer that fires
after the element has been re-entered into a new cycle participates in that
cycle exactly as the cycle's own timer would, since the fire-time phase check
cannot distinguish timers. -/
theorem C1_idle_fire_noop (cfg : Config F G) (el : Elem) (s : ElState E)
    (gs : List Bool) (hs : markersIdle s) :
    markersIdle (runT cfg el s (gs.map Ev.timerFire)).1 ∧
      (runT cfg el s (gs.map Ev.timerFire)).2 = [] := by
  apply runT_idle cfg el s _ hs
  induction gs with
  | nil => rfl
  | cons g gs ih => simpa [hasGuardTS, List.map_cons] using ih

theorem C1_idle_fire_noop_witness :
    markersIdle (⟨false, false, false, [5]⟩ : ElState Nat) ∧
      (markersIdle (runT cfgEx () (⟨false, false, false, [5]⟩ : ElState Nat)
          ([true, true].map Ev.timerFire)).1 ∧
        (runT cfgEx () (⟨false, false, false, [5]⟩ : ElState Nat)
          ([true, true].map Ev.timerFire)).2 = []) :=
  ⟨by decide, C1_idle_fire_noop cfgEx () _ [true, true] (by decide)⟩

/-- Claim C2: within one cycle — a trace on a freshly bound element containing
at most one guard-passing touchstart — the configured action is invoked at
most once, whatever the interleaving of timer firings, touchends and moves. -/
theorem C2_action_at_most_once (cfg : Config F G) (el : Elem)
    (tr : List (Ev E)) (h : countTS tr ≤ 1) :
    (runT cfg el s0 tr).2.length ≤ 1 := by
  have hp := runT_pot cfg el s0 tr
  have h0 : pot (s0 (E := E)) = 0 := rfl
  rw [h0] at hp
  omega

theorem C2_action_at_most_once_witness :
    countTS [Ev.touchstart true 1, Ev.touchend true 2, Ev.timerFire true] ≤ 1 ∧
      (runT cfgEx () s0 [Ev.touchstart true 1, Ev.touchend true 2,
        Ev.timerFire true]).2.length ≤ 1 :=
  ⟨by decide, C2_action_at_most_once cfgEx () _ (by decide)⟩

/-- Claim C3, counterexample to its marker part: after touchstart, an early
touchend and the timer firing in ENDED_EARLY, the callback is invoked but the
`touch-ended` marker is not cleared — the element does not return to the
all-clear IDLE configuration the claim prescribes. -/
theorem C3_counterexample :
    (runT cfgEx () s0 [Ev.touchstart true 1, Ev.touchend true 2,
        Ev.timerFire true]).2 = [((), 1)] ∧
      (runT cfgEx () s0 [Ev.touchstart true 1, Ev.touchend true 2,
        Ev.timerFire true]).1.touch_ended = true := by
  decide

/-- Claim C3 as amended: when the delay timer fires with the `touch-ended`
marker set, the callback is invoked iff it is callable and the guard holds at
fire time, and the marker classes are left unchanged — in particular
`touch-ended` remains set; only a later touchstart or a cancelling touchmove
clears it. -/
theorem C3_ended_early_fire (cfg : Config F G) (el : Elem) (s : ElState E)
    (g : Bool) (ev : E) (rest : List E)
    (hen : s.touch_ended = true) (htim : s.timers = ev :: rest) :
    stepT cfg el s (Ev.timerFire g) =
      ⟨{ s with timers := rest }, fireCallback cfg g el ev, false⟩ := by
  obtain ⟨t, st, en, tim⟩ := s
  simp only at hen htim
  subst hen
  subst htim
  simp [stepT]

theorem C3_ended_early_fire_witness :
    (⟨false, false, true, [7]⟩ : ElState Nat).touch_ended = true ∧
      (⟨false, false, true, [7]⟩ : ElState Nat).timers = 7 :: [] ∧
      stepT cfgEx () (⟨false, false, true, [7]⟩ : ElState Nat)
          (Ev.timerFire true) = ⟨⟨false, false, true, []⟩, [((), 7)], false⟩ :=
  ⟨rfl, rfl, C3_ended_early_fire cfgEx () _ true 7 [] rfl rfl⟩

/-- Claim C4, counterexample: after a guard-passing touchstart whose delay
timer fires while the element is still PENDING, the element carries the
`touch-started` (PENDING) and `touched` (ACTIVE) markers simultaneously —
the timer's PENDING branch adds `touched` without removing `touch-started`. -/
theorem C4_counterexample :
    (runT cfgEx () s0 [Ev.touchstart true 0, Ev.timerFire true]).1.touch_started
        = true ∧
      (runT cfgEx () s0 [Ev.touchstart true 0, Ev.timerFire true]).1.touched
        = true := by
  decide

/-- Claim C4 as amended: in every reachable state the ENDED_EARLY marker
excludes both the ACTIVE and the PENDING marker — in particular ACTIVE and
ENDED_EARLY are never simultaneously set — but PENDING and ACTIVE can
coexist, so full pairwise mutual exclusion fails. -/
theorem C4_ended_exclusive (cfg : Config F G) (el : Elem) (tr : List (Ev E)) :
    ((runT cfg el s0 tr).1.touched && (runT cfg el s0 tr).1.touch_ended)
        = false ∧
      ((runT cfg el s0 tr).1.touch_started && (runT cfg el s0 tr).1.touch_ended)
        = false := by
  have h := runT_exclInv cfg el s0 tr (by simp [exclInv, s0])
  unfold exclInv at h
  cases hen : (runT cfg el s0 tr).1.touch_ended with
  | false => simp [hen]
  | true =>
      obtain ⟨h1, h2⟩ := h hen
      simp [h1, h2, hen]

/-- Claim C5: with a configured callback and the guard true throughout, for
every delay value and either `cancelOnMove` setting, a touchstart immediately
followed by a touchend delivered before the timer fires yields — once the
timer fires — exactly one callback invocation, on the element with the
captured touchstart event, and the highlight class `touched` is never set at
any point of the cycle. -/
theorem C5_early_end_one_invocation (f : F) (com : Bool) (gd : Option G)
    (delay : Nat) (el : Elem) (ev1 ev2 : E) :
    (runT ⟨some f, com, gd, delay⟩ el s0
        [Ev.touchstart true ev1, Ev.touchend true ev2, Ev.timerFire true]).2 =
        [(el, ev1)] ∧
      ((runStates ⟨some f, com, gd, delay⟩ el s0
        [Ev.touchstart true ev1, Ev.touchend true ev2, Ev.timerFire true]).all
          fun st => !st.touched) = true := by
  simp [runT, runStates, stepT, s0, fireCallback]

/-- Claim C6: with `cancelOnMove` on, a touchmove clears all three marker
classes unconditionally from any state; and for a cycle started by a
touchstart on a freshly bound element, if the touchmove arrives before the
cycle has produced any invocation, the callback is never invoked for that
cycle — whatever timer firings, touchends, moves or clicks follow, as long as
no new guard-passing touchstart occurs. -/
theorem C6_move_cancels (cfg : Config F G) (el : Elem) (g : Bool) (ev : E)
    (pre post : List (Ev E)) (hcom : cfg.cancelOnMove = true)
    (hpost : hasGuardTS post = false)
    (hnoinv : (runT cfg el s0 (Ev.touchstart g ev :: pre)).2 = []) :
    (∀ s : ElState E, markersIdle (stepT cfg el s Ev.touchmove).s) ∧
      (runT cfg el s0
        ((Ev.touchstart g ev :: pre) ++ Ev.touchmove :: post)).2 = [] := by
  have hmove : ∀ s : ElState E, markersIdle (stepT cfg el s Ev.touchmove).s ∧
      (stepT cfg el s Ev.touchmove).invs = [] := by
    intro s
    simp [stepT, hcom, markersIdle]
  refine ⟨fun s => (hmove s).1, ?_⟩
  rw [runT_append, hnoinv]
  simp only [List.nil_append]
  set s1 := (runT cfg el s0 (Ev.touchstart g ev :: pre)).1 with hs1
  have h2 := runT_idle cfg el (stepT cfg el s1 Ev.touchmove).s post
    (hmove s1).1 hpost
  simp [runT, (hmove s1).2, h2.2]

theorem C6_move_cancels_witness :
    cfgEx.cancelOnMove = true ∧
      hasGuardTS [Ev.timerFire true, Ev.touchend true 5] = false ∧
      (runT cfgEx () s0 [Ev.touchstart true 0]).2 = [] ∧
      ((∀ s : ElState Nat, markersIdle (stepT cfgEx () s Ev.touchmove).s) ∧
        (runT cfgEx () s0 ([Ev.touchstart true 0] ++ Ev.touchmove ::
          [Ev.timerFire true, Ev.touchend true 5])).2 = []) :=
  ⟨rfl, by decide, by decide,
    C6_move_cancels cfgEx () true 0 [] [Ev.timerFire true, Ev.touchend true 5]
      rfl (by decide) (by decide)⟩

/-- Claim C7: guard re-evaluation at resolution: when the guard is false at
the resolving transition, the callback is not invoked, yet the markers change
exactly as they would with the guard true — a touchend on an ACTIVE element
still removes `touched`, and a timer firing on an ENDED_EARLY element
performs the same marker (non-)changes as in the guard-true case. -/
theorem C7_guard_false_at_resolution (cfg : Config F G) (el : Elem)
    (s : ElState E) (ev : E) :
    (s.touched = true →
      (stepT cfg el s (Ev.touchend false ev)).invs = [] ∧
        (stepT cfg el s (Ev.touchend false ev)).s =
          (stepT cfg el s (Ev.touchend true ev)).s ∧
        (stepT cfg el s (Ev.touchend false ev)).s.touched = false) ∧
    (s.touch_ended = true →
      (stepT cfg el s (Ev.timerFire false)).invs = [] ∧
        (stepT cfg el s (Ev.timerFire false)).s =
          (stepT cfg el s (Ev.timerFire true)).s) := by
  obtain ⟨t, st, en, tim⟩ := s
  constructor
  · intro ht
    simp only at ht
    subst ht
    simp [stepT, fireCallback]
  · intro hen
    simp only at hen
    subst hen
    cases tim <;> simp [stepT, fireCallback]

theorem C7_guard_false_witness :
    ((⟨true, false, false, []⟩ : ElState Nat).touched = true ∧
      ((stepT cfgEx () (⟨true, false, false, []⟩ : ElState Nat)
          (Ev.touchend false 9)).invs = [] ∧
        (stepT cfgEx () (⟨true, false, false, []⟩ : ElState Nat)
            (Ev.touchend false 9)).s =
          (stepT cfgEx () (⟨true, false, false, []⟩ : ElState Nat)
            (Ev.touchend true 9)).s ∧
        (stepT cfgEx () (⟨true, false, false, []⟩ : ElState Nat)
          (Ev.touchend false 9)).s.touched = false)) ∧
    ((⟨false, false, true, [3]⟩ : ElState Nat).touch_ended = true ∧
      ((stepT cfgEx () (⟨false, false, true, [3]⟩ : ElState Nat)
          (Ev.timerFire false)).invs = [] ∧
        (stepT cfgEx () (⟨false, false, true, [3]⟩ : ElState Nat)
            (Ev.timerFire false)).s =
          (stepT cfgEx () (⟨false, false, true, [3]⟩ : ElState Nat)
            (Ev.timerFire true)).s)) :=
  ⟨⟨rfl, (C7_guard_false_at_resolution cfgEx () _ 9).1 rfl⟩,
    ⟨rfl, (C7_guard_false_at_resolution cfgEx () _ 3).2 rfl⟩⟩

/-- Claim C8: binding with a bare function is equivalent to binding with a
configuration object whose only present field is that callback: the parsed
configurations are equal, hence every trace of the touch path runs
identically and the click fallback behaves identically. -/
theorem C8_shorthand_equiv (f : F) :
    tappableConfig (G := G) (TappableArg.func f) =
        tappableConfig (G := G) (TappableArg.obj ⟨some f, none, none, none⟩) ∧
      (∀ (el : Elem) (s : ElState E) (tr : List (Ev E)),
        runT (tappableConfig (G := G) (TappableArg.func f)) el s tr =
          runT (tappableConfig (G := G)
            (TappableArg.obj ⟨some f, none, none, none⟩)) el s tr) ∧
      (∀ (el : Elem) (g : Bool) (ev : E),
        fallbackClick (tappableConfig (G := G) (TappableArg.func f)) el g ev =
          fallbackClick (tappableConfig (G := G)
            (TappableArg.obj ⟨some f, none, none, none⟩)) el g ev) :=
  ⟨rfl, fun _ _ _ => rfl, fun _ _ _ => rfl⟩

/-- Claim C9: a binding whose action is not a callable function never invokes
the action on any trace; the marker transitions are exactly those of a
binding with a callable action; the touch-path click handler still calls
`preventDefault`; and in the no-touch fallback nothing is invoked either. -/
theorem C9_noncallable_action (cfg cfg' : Config F G) (el : Elem)
    (s : ElState E) (tr : List (Ev E)) (g : Bool) (ev : E)
    (h : cfg.callback = none) (hcom : cfg.cancelOnMove = cfg'.cancelOnMove) :
    (runT cfg el s tr).2 = [] ∧
      (runT cfg el s tr).1 = (runT cfg' el s tr).1 ∧
      (stepT cfg el s (Ev.click ev)).prevented = true ∧
      fallbackClick cfg el g ev = [] :=
  ⟨runT_invs_none cfg el s tr h, runT_state_congr cfg cfg' el s tr hcom,
    rfl, by simp [fallbackClick, h]⟩

theorem C9_noncallable_action_witness :
    cfgNone.callback = none ∧ cfgNone.cancelOnMove = cfgEx.cancelOnMove ∧
      ((runT cfgNone () s0 [Ev.touchstart true 1, Ev.timerFire true,
          Ev.touchend true 2]).2 = [] ∧
        (runT cfgNone () s0 [Ev.touchstart true 1, Ev.timerFire true,
            Ev.touchend true 2]).1 =
          (runT cfgEx () s0 [Ev.touchstart true 1, Ev.timerFire true,
            Ev.touchend true 2]).1 ∧
        (stepT cfgNone () (s0 (E := Nat)) (Ev.click 3)).prevented = true ∧
        fallbackClick cfgNone () true 3 = []) :=
  ⟨rfl, rfl, C9_noncallable_action cfgNone cfgEx () s0 _ true 3 rfl rfl⟩

/-- Claim C10: the event the action receives: a guard-passing touchstart
schedules a timer capturing the touchstart event; a timer firing on an
ENDED_EARLY element invokes the callback with the element as receiver and
that captured touchstart event as sole argument; a touchend on an ACTIVE
element invokes the callback with the element as receiver and the touchend
event as sole argument. -/
theorem C10_event_argument (cfg : Config F G) (el : Elem) (s : ElState E)
    (ev ev' : E) (rest : List E) (hcb : cfg.callback.isSome = true) :
    (stepT cfg el s (Ev.touchstart true ev)).s.timers = s.timers ++ [ev] ∧
      (s.touch_ended = true → s.timers = ev :: rest →
        (stepT cfg el s (Ev.timerFire true)).invs = [(el, ev)]) ∧
      (s.touched = true →
        (stepT cfg el s (Ev.touchend true ev')).invs = [(el, ev')]) := by
  obtain ⟨t, st, en, tim⟩ := s
  refine ⟨by simp [stepT], ?_, ?_⟩
  · intro hen htim
    simp only at hen htim
    subst hen
    subst htim
    simp [stepT, fireCallback, hcb]
  · intro ht
    simp only at ht
    subst ht
    simp [stepT, fireCallback, hcb]

theorem C10_event_argument_witness :
    cfgEx.callback.isSome = true ∧
      ((stepT cfgEx () (s0 (E := Nat)) (Ev.touchstart true 4)).s.timers =
        [4]) ∧
      ((stepT cfgEx () (⟨false, false, true, [4]⟩ : ElState Nat)
        (Ev.timerFire true)).invs = [((), 4)]) ∧
      ((stepT cfgEx () (⟨true, false, false, []⟩ : ElState Nat)
        (Ev.touchend true 8)).invs = [((), 8)]) :=
  ⟨rfl, (C10_event_argument cfgEx () (s0 (E := Nat)) 4 8 [] rfl).1,
    (C10_event_argument cfgEx () _ 4 8 [] rfl).2.1 rfl rfl,
    (C10_event_argument cfgEx () _ 4 8 [] rfl).2.2 rfl⟩

end Claims

end Tappable
